import Mathlib

/-!
Shallow embedding of the ARINC-424 snapshot-delta tool's core:
`arinc_delta/core/common.py`, the pure configuration and discard pipeline of
`arinc_delta/cli/delta.py`, and the PG schema `arinc_delta/types/pg.py`.
Strings are Lean `String`; 1-indexed inclusive column slicing, Python
truthiness and dict semantics are modelled explicitly.
-/

/-- Python `str.strip` whitespace class. -/
def pyIsSpace (c : Char) : Bool :=
  c = ' ' || c = '\t' || c = '\n' || c = '\r' || c = '\x0b' || c = '\x0c'

/-- Python `s.strip()`. -/
def pyStrip (s : String) : String :=
  String.mk (((s.data.dropWhile pyIsSpace).reverse.dropWhile pyIsSpace).reverse)

/-- Python `s.upper()` (record content here is ASCII; `Char.toUpper` is the ASCII map). -/
def pyUpper (s : String) : String :=
  String.mk (s.data.map Char.toUpper)

/-- Python `s[:n]`. -/
def strTake (s : String) (n : Nat) : String := String.mk (s.data.take n)

/-- Python truthiness of an optional string: `None` and `""` are falsy. -/
def truthyStr : Option String → Bool
  | none => false
  | some s => s != ""

/-- common.py `TCODE_ALIASES` applied to a raw two-character code. -/
def TCODE_ALIASES (raw : String) : String :=
  if raw = "D " then "DV" else raw

/-- common.py `CONT_NO_COLUMN_BY_TCODE` (dict lookup). -/
def CONT_NO_COLUMN_BY_TCODE (tc : String) : Option Nat :=
  if tc = "PG" then some 22
  else if tc = "PI" then some 22
  else if tc = "PV" then some 26
  else if tc = "DV" then some 22
  else none

/-- common.py `APPLICATION_TYPE_COLUMN_BY_TCODE` (dict lookup). -/
def APPLICATION_TYPE_COLUMN_BY_TCODE (tc : String) : Option Nat :=
  if tc = "PG" then some 23
  else if tc = "PI" then some 23
  else if tc = "PV" then some 27
  else if tc = "DV" then some 23
  else none

/-- common.py `APPLICATION_TYPE_LABELS` (dict lookup). -/
def APPLICATION_TYPE_LABELS (code : String) : Option String :=
  if code = "A" then some "Notes or formatted data continuation"
  else if code = "C" then some "Call sign or controlling agency continuation"
  else if code = "E" then some "Primary record extension"
  else if code = "L" then some "VHF navaid limitation continuation"
  else if code = "N" then some "Sector narrative continuation"
  else if code = "T" then some "Time of operations continuation (formatted data)"
  else if code = "U" then some "Time of operations continuation (narrative data)"
  else if code = "V" then some "Time of operations continuation (alternate narrative)"
  else if code = "P" then some "Flight planning application continuation"
  else if code = "Q" then some "Flight planning primary data continuation"
  else if code = "S" then some "Simulation application continuation"
  else none

/-- common.py `slice_`: Python `line[a-1:b]`, the 1-indexed inclusive column range. -/
def slice_ (line : String) (a b : Nat) : String :=
  String.mk ((line.data.drop (a - 1)).take (b + 1 - a))

/-- common.py `cont_no`. -/
def cont_no (line : String) (column : Nat) : String :=
  let c := slice_ line column column
  if c = "" || c = "0" || c = "1" || c = " " then "" else c

/-- common.py `cont_application_type`. -/
def cont_application_type (line : String) (tc : String) : String :=
  match APPLICATION_TYPE_COLUMN_BY_TCODE tc with
  | none => ""
  | some col => pyUpper (pyStrip (slice_ line col col))

/-- common.py `application_type_label`. -/
def application_type_label (code : String) : String :=
  if code = "" then ""
  else (APPLICATION_TYPE_LABELS (pyUpper code)).getD "Unknown"

/-- common.py `type_tuple`. -/
def type_tuple (line : String) : String × String :=
  (slice_ line 5 5, slice_ line 13 13)

/-- common.py `tcode`. -/
def tcode (line : String) : String :=
  TCODE_ALIASES ((type_tuple line).1 ++ (type_tuple line).2)

/-- common.py `payload_1_123`: `line[:123]`. -/
def payload_1_123 (line : String) : String := strTake line 123

/-- Helper for Python `s.split(",")`: accumulate the current field, split at commas. -/
def splitCommaAux : List Char → List Char → List (List Char)
  | [], acc => [acc.reverse]
  | c :: rest, acc =>
    if c = ',' then acc.reverse :: splitCommaAux rest []
    else splitCommaAux rest (c :: acc)

/-- Python `s.split(",")` (structural, so that it evaluates in the kernel). -/
def pySplitComma (s : String) : List String :=
  (splitCommaAux s.data []).map String.mk

/-- common.py `parse_filter_list`. -/
def parse_filter_list (arg : Option String) : Option (List String) :=
  match arg with
  | none => none
  | some a =>
    if a = "" then none
    else
      let vals := (pySplitComma a).filterMap (fun x =>
        if pyStrip x = "" then none else some (pyUpper (pyStrip x)))
      if vals = [] then none else some vals.dedup

/-- Association-list lookup (first match), modelling Python dict access. -/
def alookup {α β : Type} [DecidableEq α] : List (α × β) → α → Option β
  | [], _ => none
  | p :: rest, a => if p.1 = a then some p.2 else alookup rest a

/-- Replace the value at an existing key in place, preserving insertion order
(Python dict assignment to a present key). -/
def areplace {α β : Type} [DecidableEq α] (l : List (α × β)) (a : α) (v : β) :
    List (α × β) :=
  l.map (fun p => if p.1 = a then (a, v) else p)

/-- Python dict assignment: in-place update when the key exists, append otherwise. -/
def aupdate {α β : Type} [DecidableEq α] (l : List (α × β)) (a : α) (v : β) :
    List (α × β) :=
  if (alookup l a).isSome then areplace l a v else l ++ [(a, v)]

/-- One continuation entry: `{'line': ..., 'appl': ...}` in common.py. -/
structure ContEntry where
  line : String
  appl : String
deriving DecidableEq, Repr

/-- One entity (group) built by common.py `combine_groups`. -/
structure Entity where
  type : String × String
  primary : Option String
  cont : List (String × ContEntry)
  sample : String
deriving DecidableEq, Repr

abbrev EntityKey := String × String

abbrev EntityMap := List (EntityKey × Entity)

/-- common.py `idroot_for_line`. -/
def idroot_for_line (line : String) : EntityKey :=
  (tcode line, slice_ line 1 21)

/-- Body of the per-line work in common.py `combine_groups`, applied to the
fetched-or-created group. -/
def applyLine (g : Entity) (ln : String) : Entity :=
  let tc := tcode ln
  let cont_col := (CONT_NO_COLUMN_BY_TCODE tc).getD 22
  let c := cont_no ln cont_col
  if c = "" then
    if g.primary = none then { g with primary := some ln } else g
  else
    { g with cont := aupdate g.cont c ⟨ln, cont_application_type ln tc⟩ }

/-- The fresh group produced by `groups.setdefault` in `combine_groups`. -/
def newEntity (ln : String) : Entity := ⟨type_tuple ln, none, [], ln⟩

/-- One loop iteration of common.py `combine_groups`. -/
def combineStep (gs : EntityMap) (ln : String) : EntityMap :=
  let k := idroot_for_line ln
  match alookup gs k with
  | none => gs ++ [(k, applyLine (newEntity ln) ln)]
  | some g => areplace gs k (applyLine g ln)

/-- common.py `combine_groups`. -/
def combine_groups (lines : List String) : EntityMap :=
  lines.foldl combineStep []

/-- `g["primary"] or g["sample"]` in common.py `find_airports_to_discard`
(Python truthiness: an empty-string primary also falls back to the sample). -/
def entityRef (g : Entity) : String :=
  match g.primary with
  | some p => if p = "" then g.sample else p
  | none => g.sample

/-- ICAO of a group's reference line, columns 7..10 trimmed and uppercased. -/
def refIcao (g : Entity) : String := pyUpper (pyStrip (slice_ (entityRef g) 7 10))

/-- ICAOs receiving a primary-count increment in `find_airports_to_discard`. -/
def primaryIcaosOf (gs : EntityMap) : List String :=
  gs.filterMap (fun p =>
    if refIcao p.2 = "" then none
    else if p.2.primary ≠ none then some (refIcao p.2) else none)

/-- ICAOs receiving a continuation-count increment in `find_airports_to_discard`. -/
def contIcaosOf (gs : EntityMap) : List String :=
  gs.filterMap (fun p =>
    if refIcao p.2 = "" then none
    else if p.2.cont ≠ [] then some (refIcao p.2) else none)

/-- common.py `find_airports_to_discard` (the returned set, as a duplicate-free
list): ICAOs with a zero primary count and a positive continuation count. -/
def find_airports_to_discard (lines : List String) : List String :=
  ((primaryIcaosOf (combine_groups lines) ++ contIcaosOf (combine_groups lines)).dedup).filter
    (fun i => decide (i ∉ primaryIcaosOf (combine_groups lines) ∧
                      i ∈ contIcaosOf (combine_groups lines)))

/-- The continuation-number sort key `lambda x: (len(x), x)` as an order. -/
def contLE (a b : String) : Prop :=
  a.length < b.length ∨ (a.length = b.length ∧ a.data ≤ b.data)

instance : DecidableRel contLE := fun a b => by
  unfold contLE; infer_instance

instance : IsTotal String contLE := by
  constructor
  intro a b
  rcases Nat.lt_trichotomy a.length b.length with h | h | h
  · exact Or.inl (Or.inl h)
  · rcases le_total a.data b.data with h2 | h2
    · exact Or.inl (Or.inr ⟨h, h2⟩)
    · exact Or.inr (Or.inr ⟨h.symm, h2⟩)
  · exact Or.inr (Or.inl h)

instance : IsTrans String contLE := by
  constructor
  intro a b c hab hbc
  rcases hab with h1 | ⟨e1, l1⟩
  · rcases hbc with h2 | ⟨e2, _⟩
    · exact Or.inl (Nat.lt_trans h1 h2)
    · exact Or.inl (e2 ▸ h1)
  · rcases hbc with h2 | ⟨e2, l2⟩
    · exact Or.inl (e1 ▸ h2)
    · exact Or.inr ⟨e1.trans e2, le_trans l1 l2⟩

/-- `sorted(..., key=lambda x: (len(x), x))` on continuation numbers. -/
def sortContNos (l : List String) : List String := List.insertionSort contLE l

/-- `sorted(grp["cont"].keys(), key=lambda x: (len(x), x))`. -/
def sortedContKeys (cont : List (String × ContEntry)) : List String :=
  sortContNos (cont.map Prod.fst)

/-- One continuation's part of the canonical payload:
`f"[C{cno}:{appl}]" + payload_1_123(line)` with `appl = entry.get("appl","") or "_"`. -/
def contPart (cno : String) (e : ContEntry) : String :=
  "[C" ++ cno ++ ":" ++ (if e.appl = "" then "_" else e.appl) ++ "]" ++ payload_1_123 e.line

/-- common.py `canonical_payload`. -/
def canonical_payload (g : Entity) : String :=
  let pparts : List String :=
    match g.primary with
    | some p => [payload_1_123 p]
    | none => []
  let cparts : List String := (sortedContKeys g.cont).filterMap (fun cno =>
    (alookup g.cont cno).map (fun e => contPart cno e))
  String.intercalate "|" (pparts ++ cparts)

/-- Python tuple comparison on entity keys (pairs of strings, code-point order). -/
def keyLE (a b : EntityKey) : Prop :=
  a.1.data < b.1.data ∨ (a.1.data = b.1.data ∧ a.2.data ≤ b.2.data)

instance : DecidableRel keyLE := fun a b => by
  unfold keyLE; infer_instance

instance : IsTotal EntityKey keyLE := by
  constructor
  intro a b
  rcases lt_trichotomy a.1.data b.1.data with h | h | h
  · exact Or.inl (Or.inl h)
  · rcases le_total a.2.data b.2.data with h2 | h2
    · exact Or.inl (Or.inr ⟨h, h2⟩)
    · exact Or.inr (Or.inr ⟨h.symm, h2⟩)
  · exact Or.inr (Or.inl h)

instance : IsTrans EntityKey keyLE := by
  constructor
  intro a b c hab hbc
  rcases hab with h1 | ⟨e1, l1⟩
  · rcases hbc with h2 | ⟨e2, _⟩
    · exact Or.inl (lt_trans h1 h2)
    · exact Or.inl (e2 ▸ h1)
  · rcases hbc with h2 | ⟨e2, l2⟩
    · exact Or.inl (e1 ▸ h2)
    · exact Or.inr ⟨e1.trans e2, le_trans l1 l2⟩

/-- `sorted(...)` on sets of entity keys. -/
def sortKeys (l : List EntityKey) : List EntityKey := List.insertionSort keyLE l

def keysOf (gs : EntityMap) : List EntityKey := gs.map Prod.fst

/-- common.py `compute_delta`: `(added, removed, modified)` in sorted-key order.
`set(...)` of dict keys is modelled by `dedup`; `old_g[k]` by `alookup` (both are
`some` on the intersection). -/
def compute_delta (old_g new_g : EntityMap) :
    List EntityKey × List EntityKey × List EntityKey :=
  (sortKeys (((keysOf new_g).dedup).filter (fun k => decide (k ∉ (keysOf old_g).dedup))),
   sortKeys (((keysOf old_g).dedup).filter (fun k => decide (k ∉ (keysOf new_g).dedup))),
   (sortKeys (((keysOf old_g).dedup).filter (fun k => decide (k ∈ (keysOf new_g).dedup)))).filter
     (fun k => decide ((alookup old_g k).map canonical_payload ≠
                       (alookup new_g k).map canonical_payload)))

/-- A projected output row: ordered field-name/value mapping. -/
abbrev Row := List (String × String)

/-- Python `row.get(k, "")` / missing-value default. -/
def rowGet (r : Row) (k : String) : String := (alookup r k).getD ""

abbrev ColSpec := List (String × Option (Nat × Nat))

/-- common.py `build_header_for_type` (`cont_numbers` models the set argument). -/
def build_header_for_type (cols : ColSpec) (cont_numbers : List String) : List String :=
  cols.map Prod.fst ++ (sortContNos cont_numbers.dedup).flatMap (fun cno =>
    ["cont#" ++ cno ++ "_appl_code", "cont#" ++ cno ++ "_appl_label",
     "cont#" ++ cno ++ "_1_123"])

/-- Value of one schema field in common.py `parse_primary_fields`. -/
def fieldValue (line : String) (rng : Option (Nat × Nat)) : String :=
  match rng with
  | none => payload_1_123 line
  | some (a, b) => pyStrip (slice_ line a b)

/-- common.py `parse_primary_fields` (dict build, last assignment wins). -/
def parse_primary_fields (line : String) (cols : ColSpec) : Row :=
  cols.foldl (fun d c => aupdate d c.1 (fieldValue line c.2)) []

/-- The trailing `row.setdefault(k, "")` loop of `build_row_from_group`. -/
def setdefaults (header : List String) (r : Row) : Row :=
  header.foldl (fun r k => if (alookup r k).isSome then r else r ++ [(k, "")]) r

/-- One iteration of the continuation loop in `build_row_from_group`. -/
def contFieldsStep (header : List String) (g : Entity) (r : Row) (cno : String) : Row :=
  match alookup g.cont cno with
  | none => r
  | some e =>
    let r1 := if ("cont#" ++ cno ++ "_appl_code") ∈ header
              then aupdate r ("cont#" ++ cno ++ "_appl_code") e.appl else r
    let r2 := if ("cont#" ++ cno ++ "_appl_label") ∈ header
              then aupdate r1 ("cont#" ++ cno ++ "_appl_label")
                     (application_type_label e.appl) else r1
    if ("cont#" ++ cno ++ "_1_123") ∈ header
    then aupdate r2 ("cont#" ++ cno ++ "_1_123") (payload_1_123 e.line) else r2

/-- The `ref` selection of `build_row_from_group`: the primary if truthy, else
the first continuation in `(len, value)` order when continuations exist. -/
def refLineOf (grp : Entity) : Option String :=
  if !truthyStr grp.primary && !grp.cont.isEmpty then
    match sortedContKeys grp.cont with
    | [] => grp.primary
    | c :: _ => (alookup grp.cont c).map ContEntry.line
  else grp.primary

/-- The row before the continuation loop in `build_row_from_group`: schema
fields from the reference line plus the privileged raw primary payload, or the
all-empty row when no truthy reference line exists. -/
def baseRowOf (cols : ColSpec) (grp : Entity) (header : List String) : Row :=
  if truthyStr (refLineOf grp) then
    match grp.primary with
    | some p => aupdate (parse_primary_fields ((refLineOf grp).getD "") cols)
        "primary_1_123" (payload_1_123 p)
    | none => parse_primary_fields ((refLineOf grp).getD "") cols
  else
    header.foldl (fun r k => aupdate r k "") []

/-- common.py `build_row_from_group`. Python truthiness of `ref` is modelled by
`truthyStr`; the post-process hook mutates the row, modelled as `Row → Row`. -/
def build_row_from_group (cols : ColSpec) (grp : Entity) (header : List String)
    (postprocess_row : Option (Row → Row)) : Row :=
  setdefaults header
    (match postprocess_row with
     | some f => f ((sortedContKeys grp.cont).foldl (contFieldsStep header grp)
         (baseRowOf cols grp header))
     | none => (sortedContKeys grp.cont).foldl (contFieldsStep header grp)
         (baseRowOf cols grp header))

/-- `[c for c in base_hdr if nr.get(c) != orow.get(c)]` in `write_type_csvs`
(`dict.get` with no default, hence `Option` comparison). -/
def changed_fields_between (base_hdr : List String) (orow nrow : Row) : List String :=
  base_hdr.filter (fun c => decide (alookup nrow c ≠ alookup orow c))

/-- The tabular content produced by common.py `write_type_csvs` (file IO aside). -/
structure TypeCsvResult where
  base_hdr : List String
  mod_hdr : List String
  current_rows : List Row
  added_rows : List Row
  removed_rows : List Row
  mod_rows : List Row
  counts : Nat × Nat × Nat × Nat
deriving DecidableEq, Repr

/-- common.py `write_type_csvs`: the computation behind the four CSVs and the
returned `(current, added, removed, modified)` counts. -/
def write_type_csvs (cols : ColSpec) (postprocess_row : Option (Row → Row))
    (old_groups new_groups : EntityMap) : TypeCsvResult :=
  let conts := (((old_groups ++ new_groups).map (fun p => p.2.cont.map Prod.fst)).flatten).dedup
  let base_hdr := build_header_for_type cols conts
  let mod_hdr := base_hdr ++ ["changed_field_count", "changed_fields"]
  let current_rows := new_groups.map
    (fun p => build_row_from_group cols p.2 base_hdr postprocess_row)
  let d := compute_delta old_groups new_groups
  let added_rows := d.1.filterMap (fun k => (alookup new_groups k).map
    (fun g => build_row_from_group cols g base_hdr postprocess_row))
  let removed_rows := d.2.1.filterMap (fun k => (alookup old_groups k).map
    (fun g => build_row_from_group cols g base_hdr postprocess_row))
  let mod_rows := d.2.2.filterMap (fun k =>
    match alookup old_groups k, alookup new_groups k with
    | some og, some ng =>
      let nr := build_row_from_group cols ng base_hdr postprocess_row
      let orow := build_row_from_group cols og base_hdr postprocess_row
      let changed := changed_fields_between base_hdr orow nr
      some (aupdate (aupdate nr "changed_field_count" (toString changed.length))
              "changed_fields" (String.intercalate "," changed))
    | _, _ => none)
  ⟨base_hdr, mod_hdr, current_rows, added_rows, removed_rows, mod_rows,
   (current_rows.length, d.1.length, d.2.1.length, mod_rows.length)⟩

namespace pg

/-- types/pg.py `COLS`. -/
def COLS : ColSpec :=
  [("area_code", some (2, 4)),
   ("icao", some (7, 10)), ("runway_id", some (14, 18)),
   ("rwy_length_ft", some (23, 27)), ("rwy_mag_brg_tenths", some (28, 31)),
   ("lat_raw", some (33, 41)), ("lon_raw", some (42, 51)),
   ("rwy_grad_pct100", some (52, 56)),
   ("lthr_elev_ft", some (67, 71)), ("dthr_ft", some (72, 75)),
   ("tch_raw", some (76, 77)), ("rwy_width_ft", some (78, 80)),
   ("loc_mls_gls_ident", some (82, 85)),
   ("primary_1_123", none)]

/-- types/pg.py `postprocess_row`. -/
def postprocess_row (row : Row) : Row :=
  if rowGet row "loc_mls_gls_ident" ≠ "" then
    aupdate row "loc_mls_gls_ident" (pyStrip (strTake (rowGet row "loc_mls_gls_ident") 4))
  else row

end pg

/-- cli/delta.py `REGION_ALIAS_MAP` (dict lookup). -/
def REGION_ALIAS_MAP (code : String) : Option (List String) :=
  if code = "EU" then some ["EUR", "EEU"]
  else if code = "ME" then some ["MES"]
  else none

/-- The keys of the `REGISTRY` in cli/delta.py. -/
def REGISTRY_TYPES : List String := ["PG", "PI", "PV", "DV"]

/-- `[t.strip().upper() for t in args.types.split(",") if t.strip()]` in delta.py. -/
def parse_req_types (types_arg : String) : List String :=
  (pySplitComma types_arg).filterMap (fun t =>
    if pyStrip t = "" then none else some (pyUpper (pyStrip t)))

/-- One iteration of the region-alias expansion loop of delta.py `main`:
`region_area.update(mapped)` for a known alias, `region_area.add(code)` otherwise. -/
def expandStep (acc : List String) (code : String) : List String :=
  match REGION_ALIAS_MAP code with
  | some m => acc ++ m
  | none => acc ++ [code]

/-- The region-alias expansion of delta.py `main` (set-valued; duplicate-free). -/
def expand_region (codes : List String) : List String :=
  (codes.foldl expandStep []).dedup

/-- The per-run configuration computed at the top of delta.py `main`. -/
structure RunConfig where
  req_types : List String
  icao_f : Option (List String)
  area_f : Option (List String)
  region_requested : Bool
deriving DecidableEq, Repr

/-- The configuration phase of delta.py `main`, up to (and excluding) reading the
snapshots: type validation (`SystemExit` on an unknown type), filter parsing and
region expansion. -/
def main_config (types_arg region_arg : String) (airport_arg area_arg : Option String) :
    Except String RunConfig :=
  let req := parse_req_types types_arg
  match req.find? (fun t => decide (t ∉ REGISTRY_TYPES)) with
  | some t => .error ("Unknown type " ++ t)
  | none =>
    let icao_f := parse_filter_list airport_arg
    let explicit_area := parse_filter_list area_arg
    let region_codes := parse_filter_list (some region_arg)
    let region_area := region_codes.map expand_region
    let area_f :=
      match explicit_area with
      | some a => some a
      | none => region_area
    .ok ⟨req, icao_f, area_f, region_codes.isSome⟩

/-- Plain string sort order (Python `sorted` on strings, code-point lexicographic). -/
def strDataLE (a b : String) : Prop := a.data ≤ b.data

instance : DecidableRel strDataLE := fun a b => by
  unfold strDataLE; infer_instance

instance : IsTotal String strDataLE := by
  constructor; intro a b; exact le_total a.data b.data

instance : IsTrans String strDataLE := by
  constructor; intro a b c h1 h2; exact le_trans h1 h2

/-- `discard_icaos = sorted(discard_old | discard_new)` in delta.py `main`. -/
def discard_union (old_lines new_lines : List String) : List String :=
  List.insertionSort strDataLE
    ((find_airports_to_discard old_lines ++ find_airports_to_discard new_lines).dedup)

/-- `slice_(l, 7, 10).strip().upper()`: the ICAO of a line. -/
def lineIcao (l : String) : String := pyUpper (pyStrip (slice_ l 7 10))

/-- The conditional orphan-ICAO filtering of both snapshots in delta.py `main`. -/
def apply_discard (lines : List String) (discard : List String) : List String :=
  if discard = [] then lines
  else lines.filter (fun l => decide (lineIcao l ∉ discard))

/-- common.py `bucket_by_tcode`, projected at one type code. -/
def bucket_by_tcode (lines : List String) (t : String) : List String :=
  lines.filter (fun l => decide (tcode l = t))

/-- ICAO of an entity key (columns 7..10 of the 21-character identifier). -/
def keyIcao (k : EntityKey) : String := pyUpper (pyStrip (slice_ k.2 7 10))

/-! Concrete inputs used by the claim-specific theorems. -/

/-- A 132-column PG primary line: area `EUR`, ICAO `LTAC`, runway id `RWY01`,
continuation column 22 blank (primary), runway length (cols 23..27) `09000`. -/
def pgOldLine : String :=
  "SEURP LTACLTGRWY01    09000" ++ String.mk (List.replicate 105 ' ')

/-- Same line with runway length `09500`. -/
def pgNewLine : String :=
  "SEURP LTACLTGRWY01    09500" ++ String.mk (List.replicate 105 ' ')

/-- A 132-column PG continuation line (column 22 is `2`) for ICAO `AAAA`,
application-type column 23 `A`. -/
def pgContLine : String :=
  "SEURP AAAALTGRWY02   2A" ++ String.mk (List.replicate 109 ' ')

/-- The `write_type_csvs` run of the C1 scenario: one PG primary whose runway
length changes from `09000` to `09500`. -/
def c1Result : TypeCsvResult :=
  write_type_csvs pg.COLS (some pg.postprocess_row)
    (combine_groups [pgOldLine]) (combine_groups [pgNewLine])

/-- An entity with continuation numbers "2", "10", "3" (insertion order). -/
def c6Entity : Entity :=
  ⟨("P", "G"), some "PRIM",
   [("2", ⟨"L2", ""⟩), ("10", ⟨"L10", ""⟩), ("3", ⟨"L3", ""⟩)], "PRIM"⟩

/-- An entity with one continuation whose application type is empty. -/
def c9Entity : Entity :=
  ⟨("P", "G"), some "PRIM", [("2", ⟨"L2", ""⟩)], "PRIM"⟩

/-- Header for the PG schema with continuation number "2". -/
def pgHdr2 : List String := build_header_for_type pg.COLS ["2"]

/-- An entity with a primary and no continuations. -/
def c4PrimEntity : Entity := ⟨("P", "G"), some pgOldLine, [], pgOldLine⟩

/-- A continuation-only entity (no primary). -/
def c4ContEntity : Entity :=
  ⟨("P", "G"), none, [("2", ⟨pgContLine, "A"⟩)], pgContLine⟩

/-- A continuation-only entity whose reference line has a blank airport code. -/
def blankIcaoEntity : Entity := ⟨("P", "G"), none, [("2", ⟨"", ""⟩)], ""⟩

section AssocLemmas

variable {α β : Type} [DecidableEq α]

theorem alookup_append (l₁ l₂ : List (α × β)) (k : α) :
    alookup (l₁ ++ l₂) k =
      match alookup l₁ k with
      | some v => some v
      | none => alookup l₂ k := by
  induction l₁ with
  | nil => simp [alookup]
  | cons p rest ih =>
    by_cases h : p.1 = k
    · simp [alookup, h]
    · simp [alookup, h, ih]

theorem alookup_eq_none_iff (l : List (α × β)) (k : α) :
    alookup l k = none ↔ k ∉ l.map Prod.fst := by
  induction l with
  | nil => simp [alookup]
  | cons p rest ih =>
    by_cases h : p.1 = k
    · simp [alookup, h]
    · simp [alookup, h, ih, Ne.symm h]

theorem alookup_isSome_of_mem_keys {l : List (α × β)} {k : α}
    (h : k ∈ l.map Prod.fst) : (alookup l k).isSome := by
  cases hl : alookup l k with
  | none => exact absurd h ((alookup_eq_none_iff l k).mp hl)
  | some v => rfl

theorem mem_keys_of_alookup_some {l : List (α × β)} {k : α} {v : β}
    (h : alookup l k = some v) : k ∈ l.map Prod.fst := by
  by_contra hmem
  rw [(alookup_eq_none_iff l k).mpr hmem] at h
  exact Option.noConfusion h

theorem alookup_areplace_self {l : List (α × β)} {k : α} (v : β)
    (h : (alookup l k).isSome) : alookup (areplace l k v) k = some v := by
  induction l with
  | nil => simp [alookup] at h
  | cons p rest ih =>
    by_cases hp : p.1 = k
    · simp [alookup, areplace, hp]
    · simp only [alookup, hp, if_false] at h
      simp [areplace, alookup, hp]
      exact ih h

theorem alookup_cons (p : α × β) (rest : List (α × β)) (a : α) :
    alookup (p :: rest) a = if p.1 = a then some p.2 else alookup rest a := rfl

theorem areplace_cons (p : α × β) (rest : List (α × β)) (k : α) (v : β) :
    areplace (p :: rest) k v = (if p.1 = k then (k, v) else p) :: areplace rest k v := rfl

theorem areplace_append (l₁ l₂ : List (α × β)) (k : α) (v : β) :
    areplace (l₁ ++ l₂) k v = areplace l₁ k v ++ areplace l₂ k v := by
  simp [areplace]

theorem alookup_areplace_ne (l : List (α × β)) (k k' : α) (v : β) (h : k' ≠ k) :
    alookup (areplace l k v) k' = alookup l k' := by
  induction l with
  | nil => rfl
  | cons p rest ih =>
    rw [areplace_cons, alookup_cons, alookup_cons, ih]
    by_cases hp : p.1 = k
    · rw [if_pos hp]
      have h1 : ¬ (((k, v) : α × β).1 = k') := fun he => h he.symm
      have h2 : ¬ (p.1 = k') := fun he => h (hp.symm.trans he).symm
      rw [if_neg h1, if_neg h2]
    · rw [if_neg hp]

theorem areplace_of_none {l : List (α × β)} {k : α} (v : β)
    (h : alookup l k = none) : areplace l k v = l := by
  induction l with
  | nil => rfl
  | cons p rest ih =>
    rw [alookup_cons] at h
    by_cases hp : p.1 = k
    · rw [if_pos hp] at h
      exact Option.noConfusion h
    · rw [if_neg hp] at h
      rw [areplace_cons, if_neg hp, ih h]

theorem areplace_areplace (l : List (α × β)) (k : α) (v w : β) :
    areplace (areplace l k w) k v = areplace l k v := by
  simp only [areplace, List.map_map]
  apply List.map_congr_left
  intro p _
  by_cases hp : p.1 = k <;> simp [hp]

theorem keys_areplace (l : List (α × β)) (k : α) (v : β) :
    (areplace l k v).map Prod.fst = l.map Prod.fst := by
  simp only [areplace, List.map_map]
  apply List.map_congr_left
  intro p _
  by_cases hp : p.1 = k <;> simp [hp]

theorem alookup_aupdate_self (l : List (α × β)) (k : α) (v : β) :
    alookup (aupdate l k v) k = some v := by
  unfold aupdate
  by_cases hs : (alookup l k).isSome = true
  · rw [if_pos hs]
    exact alookup_areplace_self v hs
  · rw [if_neg hs, alookup_append, Option.not_isSome_iff_eq_none.mp hs]
    rw [alookup_cons, if_pos rfl]

theorem alookup_aupdate_ne (l : List (α × β)) (k k' : α) (v : β) (h : k' ≠ k) :
    alookup (aupdate l k v) k' = alookup l k' := by
  unfold aupdate
  by_cases hs : (alookup l k).isSome = true
  · rw [if_pos hs]
    exact alookup_areplace_ne l k k' v h
  · rw [if_neg hs, alookup_append]
    cases hl : alookup l k' with
    | some w => rfl
    | none =>
      rw [alookup_cons, if_neg (fun he => h he.symm)]
      rfl

theorem aupdate_aupdate_same (l : List (α × β)) (k : α) (v w : β) :
    aupdate (aupdate l k w) k v = aupdate l k v := by
  by_cases hs : (alookup l k).isSome = true
  · have h1 : alookup (areplace l k w) k = some w := alookup_areplace_self w hs
    unfold aupdate
    rw [if_pos hs, if_pos (by rw [h1]; rfl), areplace_areplace, if_pos hs]
  · have hnone : alookup l k = none := Option.not_isSome_iff_eq_none.mp hs
    have h1 : alookup (l ++ [(k, w)]) k = some w := by
      rw [alookup_append, hnone, alookup_cons, if_pos rfl]
    unfold aupdate
    rw [if_neg hs, if_pos (by rw [h1]; rfl)]
    rw [areplace_append, areplace_of_none v hnone, areplace_cons, if_pos rfl]
    rw [if_neg hs]
    rfl

theorem keys_aupdate (l : List (α × β)) (k : α) (v : β) :
    (aupdate l k v).map Prod.fst = l.map Prod.fst ∨
    (aupdate l k v).map Prod.fst = l.map Prod.fst ++ [k] := by
  unfold aupdate
  by_cases hs : (alookup l k).isSome = true
  · rw [if_pos hs]
    exact Or.inl (keys_areplace l k v)
  · rw [if_neg hs]
    exact Or.inr (by simp)

end AssocLemmas

theorem applyLine_idem (g : Entity) (ln : String) :
    applyLine (applyLine g ln) ln = applyLine g ln := by
  unfold applyLine
  by_cases hc : cont_no ln ((CONT_NO_COLUMN_BY_TCODE (tcode ln)).getD 22) = ""
  · rw [if_pos hc, if_pos hc]
    by_cases hp : g.primary = none
    · rw [if_pos hp]
      rw [if_neg (by simp)]
    · rw [if_neg hp, if_neg hp]
  · rw [if_neg hc, if_neg hc]
    simp only
    rw [aupdate_aupdate_same]

theorem combineStep_eq_none (gs : EntityMap) (ln : String)
    (h : alookup gs (idroot_for_line ln) = none) :
    combineStep gs ln = gs ++ [(idroot_for_line ln, applyLine (newEntity ln) ln)] := by
  simp only [combineStep]
  rw [h]

theorem combineStep_eq_some (gs : EntityMap) (ln : String) (g : Entity)
    (h : alookup gs (idroot_for_line ln) = some g) :
    combineStep gs ln = areplace gs (idroot_for_line ln) (applyLine g ln) := by
  simp only [combineStep]
  rw [h]

theorem combineStep_idem (gs : EntityMap) (ln : String) :
    combineStep (combineStep gs ln) ln = combineStep gs ln := by
  cases h : alookup gs (idroot_for_line ln) with
  | none =>
    rw [combineStep_eq_none gs ln h]
    have h1 : alookup (gs ++ [(idroot_for_line ln, applyLine (newEntity ln) ln)])
        (idroot_for_line ln) = some (applyLine (newEntity ln) ln) := by
      rw [alookup_append, h, alookup_cons, if_pos rfl]
    rw [combineStep_eq_some _ ln _ h1, applyLine_idem]
    rw [areplace_append, areplace_of_none _ h, areplace_cons, if_pos rfl]
    rfl
  | some g =>
    rw [combineStep_eq_some gs ln g h]
    have h1 : alookup (areplace gs (idroot_for_line ln) (applyLine g ln))
        (idroot_for_line ln) = some (applyLine g ln) :=
      alookup_areplace_self _ (by rw [h]; rfl)
    rw [combineStep_eq_some _ ln _ h1, applyLine_idem, areplace_areplace]

theorem nodup_keys_aupdate {α β : Type} [DecidableEq α] {l : List (α × β)} (k : α) (v : β)
    (h : (l.map Prod.fst).Nodup) : ((aupdate l k v).map Prod.fst).Nodup := by
  unfold aupdate
  by_cases hs : (alookup l k).isSome = true
  · rw [if_pos hs, keys_areplace]
    exact h
  · rw [if_neg hs]
    have hk : k ∉ l.map Prod.fst :=
      (alookup_eq_none_iff l k).mp (Option.not_isSome_iff_eq_none.mp hs)
    simp [List.nodup_append, h, hk, List.disjoint_singleton]

theorem nodup_contKeys_applyLine {g : Entity} (ln : String)
    (h : (g.cont.map Prod.fst).Nodup) :
    (((applyLine g ln).cont).map Prod.fst).Nodup := by
  unfold applyLine
  by_cases hc : cont_no ln ((CONT_NO_COLUMN_BY_TCODE (tcode ln)).getD 22) = ""
  · rw [if_pos hc]
    by_cases hp : g.primary = none
    · rw [if_pos hp]; exact h
    · rw [if_neg hp]; exact h
  · rw [if_neg hc]
    exact nodup_keys_aupdate _ _ h

theorem nodup_contKeys_foldl (lines : List String) :
    ∀ (gs : EntityMap),
      (∀ k g, alookup gs k = some g → (g.cont.map Prod.fst).Nodup) →
      ∀ k g, alookup (lines.foldl combineStep gs) k = some g →
        (g.cont.map Prod.fst).Nodup := by
  induction lines with
  | nil => intro gs h k g hg; exact h k g hg
  | cons ln rest ih =>
    intro gs h k g hg
    refine ih (combineStep gs ln) ?_ k g hg
    intro k' g' hg'
    cases hl : alookup gs (idroot_for_line ln) with
    | none =>
      rw [combineStep_eq_none gs ln hl, alookup_append] at hg'
      cases hin : alookup gs k' with
      | some g0 =>
        rw [hin] at hg'
        exact h k' g' (hin.trans (by injection hg' with he; rw [he]))
      | none =>
        rw [hin, alookup_cons] at hg'
        by_cases hk : idroot_for_line ln = k'
        · rw [if_pos hk] at hg'
          injection hg' with he
          rw [← he]
          exact nodup_contKeys_applyLine ln (by simp [newEntity])
        · rw [if_neg hk] at hg'
          exact Option.noConfusion hg'
    | some g1 =>
      rw [combineStep_eq_some gs ln g1 hl] at hg'
      by_cases hk : k' = idroot_for_line ln
      · rw [hk, alookup_areplace_self _ (by rw [hl]; rfl)] at hg'
        injection hg' with he
        rw [← he]
        exact nodup_contKeys_applyLine ln (h _ _ hl)
      · rw [alookup_areplace_ne _ _ _ _ hk] at hg'
        exact h k' g' hg'

/-- C5: duplicating any line in the input leaves `combine_groups` unchanged
(a repeated primary is dropped, a repeated continuation overwrites the same
slot with the same entry), and no entity ever holds two entries at one
continuation number (a second primary is impossible by construction, the
`primary` field being a single optional line). -/
theorem C5_theorem :
    (∀ (xs : List String) (l : String) (ys : List String),
        combine_groups (xs ++ l :: l :: ys) = combine_groups (xs ++ l :: ys)) ∧
    (∀ (lines : List String) (k : EntityKey) (g : Entity),
        alookup (combine_groups lines) k = some g → (g.cont.map Prod.fst).Nodup) := by
  constructor
  · intro xs l ys
    unfold combine_groups
    rw [List.foldl_append, List.foldl_append]
    simp only [List.foldl_cons]
    rw [combineStep_idem]
  · intro lines k g hg
    exact nodup_contKeys_foldl lines [] (by intro k' g' h'; exact Option.noConfusion h') k g hg

theorem c5_witness_lookup :
    alookup (combine_groups [pgContLine]) (idroot_for_line pgContLine) =
      some ((alookup (combine_groups [pgContLine]) (idroot_for_line pgContLine)).getD
        (newEntity pgContLine)) := rfl

/-- Witness for C5 at a concrete continuation line. -/
theorem C5_witness :
    combine_groups [pgContLine, pgContLine] = combine_groups [pgContLine] ∧
    (((((alookup (combine_groups [pgContLine]) (idroot_for_line pgContLine)).getD
        (newEntity pgContLine))).cont).map Prod.fst).Nodup :=
  ⟨C5_theorem.1 [] pgContLine [],
   C5_theorem.2 [pgContLine] (idroot_for_line pgContLine) _ c5_witness_lookup⟩

/-- C7: `compute_delta` of an entity mapping against itself yields empty added,
removed and modified lists. -/
theorem C7_theorem (g : EntityMap) : compute_delta g g = ([], [], []) := by
  unfold compute_delta
  have h1 : ((keysOf g).dedup).filter (fun k => decide (k ∉ (keysOf g).dedup)) = [] := by
    rw [List.filter_eq_nil_iff]
    intro a ha
    simp [ha]
  have h2 : ∀ l : List EntityKey, l.filter
      (fun k => decide ((alookup g k).map canonical_payload ≠
                        (alookup g k).map canonical_payload)) = [] := by
    intro l
    rw [List.filter_eq_nil_iff]
    intro a _
    simp
  rw [h1, h2]
  rfl

/-- C8: the added, removed and modified lists of `compute_delta` are each in
ascending sorted order of entity key (Python tuple order on the key pair). -/
theorem C8_theorem (old_g new_g : EntityMap) :
    List.Sorted keyLE (compute_delta old_g new_g).1 ∧
    List.Sorted keyLE (compute_delta old_g new_g).2.1 ∧
    List.Sorted keyLE (compute_delta old_g new_g).2.2 := by
  unfold compute_delta sortKeys
  refine ⟨List.sorted_insertionSort keyLE _, List.sorted_insertionSort keyLE _, ?_⟩
  exact (List.sorted_insertionSort keyLE _).sublist (List.filter_sublist _)

/-- C6: the continuation keys used by `canonical_payload` (and by
`build_row_from_group`, which iterates the same `sortedContKeys` sequence) are
sorted by `(length, value)`; an entity with continuation numbers "2","10","3"
is joined in the order "2","3","10". -/
theorem C6_theorem :
    (∀ cont : List (String × ContEntry), List.Sorted contLE (sortedContKeys cont)) ∧
    canonical_payload c6Entity = "PRIM|[C2:_]L2|[C3:_]L3|[C10:_]L10" := by
  constructor
  · intro cont
    unfold sortedContKeys sortContNos
    exact List.sorted_insertionSort contLE _
  · rfl

/-- C10: an entity whose reference line has a blank airport code contributes to
neither the primary nor the continuation count of any ICAO, and the empty
string is never in the discard set returned by `find_airports_to_discard`
(hence blank-ICAO continuation-only entities are never discarded). -/
theorem C10_theorem :
    (∀ (e : EntityKey × Entity) (gs : EntityMap), refIcao e.2 = "" →
        primaryIcaosOf (e :: gs) = primaryIcaosOf gs ∧
        contIcaosOf (e :: gs) = contIcaosOf gs) ∧
    (∀ lines : List String, "" ∉ find_airports_to_discard lines) := by
  constructor
  · intro e gs h
    constructor
    · simp [primaryIcaosOf, h]
    · simp [contIcaosOf, h]
  · intro lines hmem
    unfold find_airports_to_discard at hmem
    have h1 := List.of_mem_filter hmem
    rw [decide_eq_true_eq] at h1
    have hc := h1.2
    unfold contIcaosOf at hc
    rw [List.mem_filterMap] at hc
    obtain ⟨p, _, hp⟩ := hc
    by_cases hr : refIcao p.2 = ""
    · rw [if_pos hr] at hp
      exact Option.noConfusion hp
    · rw [if_neg hr] at hp
      by_cases hcc : p.2.cont ≠ []
      · rw [if_pos hcc] at hp
        injection hp with he
        exact hr he
      · rw [if_neg hcc] at hp
        exact Option.noConfusion hp

/-- Witness for C10 at a blank-ICAO continuation-only entity and a concrete
line list. -/
theorem C10_witness :
    (primaryIcaosOf [(("PG", "k1"), blankIcaoEntity)] = primaryIcaosOf [] ∧
     contIcaosOf [(("PG", "k1"), blankIcaoEntity)] = contIcaosOf []) ∧
    "" ∉ find_airports_to_discard [pgContLine] :=
  ⟨C10_theorem.1 (("PG", "k1"), blankIcaoEntity) [] rfl,
   C10_theorem.2 [pgContLine]⟩

theorem mem_foldl_expandStep_of_mem_acc (codes : List String) :
    ∀ (acc : List String) (x : String), x ∈ acc → x ∈ codes.foldl expandStep acc := by
  induction codes with
  | nil => intro acc x h; exact h
  | cons c rest ih =>
    intro acc x h
    refine ih (expandStep acc c) x ?_
    unfold expandStep
    cases REGION_ALIAS_MAP c with
    | none => exact List.mem_append_left _ h
    | some m => exact List.mem_append_left _ h

theorem mem_foldl_expandStep (codes : List String) (code : String)
    (hmem : code ∈ codes) (halias : REGION_ALIAS_MAP code = none) :
    ∀ acc : List String, code ∈ codes.foldl expandStep acc := by
  induction codes with
  | nil => exact absurd hmem (List.not_mem_nil code)
  | cons c rest ih =>
    intro acc
    rcases List.mem_cons.mp hmem with he | hr
    · subst he
      refine mem_foldl_expandStep_of_mem_acc rest (expandStep acc code) code ?_
      unfold expandStep
      rw [halias]
      exact List.mem_append_right _ (List.mem_singleton.mpr rfl)
    · exact ih hr _

/-- C2 (amended): an unknown requested record-type code is rejected before any
processing; requested region values are never validated — when every requested
type is known the configuration phase succeeds no matter what the region
argument holds, and a region value that is not a known alias is passed through
verbatim into the expanded area-code set. -/
theorem C2_theorem :
    (∀ (targ rarg : String) (a b : Option String) (t : String),
        t ∈ parse_req_types targ → t ∉ REGISTRY_TYPES →
        ∃ msg, main_config targ rarg a b = .error msg) ∧
    (∀ (targ rarg : String) (a b : Option String),
        (∀ t ∈ parse_req_types targ, t ∈ REGISTRY_TYPES) →
        ∃ cfg, main_config targ rarg a b = .ok cfg) ∧
    (∀ (codes : List String) (code : String),
        code ∈ codes → REGION_ALIAS_MAP code = none → code ∈ expand_region codes) := by
  refine ⟨?_, ?_, ?_⟩
  · intro targ rarg a b t hmem hreg
    have hex : ∃ x ∈ parse_req_types targ,
        (fun t => decide (t ∉ REGISTRY_TYPES)) x := ⟨t, hmem, decide_eq_true hreg⟩
    obtain ⟨t2, ht2⟩ := Option.isSome_iff_exists.mp (List.find?_isSome.mpr hex)
    refine ⟨"Unknown type " ++ t2, ?_⟩
    simp only [main_config]
    rw [ht2]
  · intro targ rarg a b hall
    have hnone : (parse_req_types targ).find? (fun t => decide (t ∉ REGISTRY_TYPES)) = none := by
      rw [List.find?_eq_none]
      intro x hx
      simp [hall x hx]
    cases hmc : main_config targ rarg a b with
    | ok c => exact ⟨c, rfl⟩
    | error m =>
      simp only [main_config] at hmc
      rw [hnone] at hmc
      exact Except.noConfusion hmc
  · intro codes code hmem halias
    unfold expand_region
    exact List.mem_dedup.mpr (mem_foldl_expandStep codes code hmem halias _)

/-- Counterexample for C2: the region value `ZZZZZ9` is neither a known alias
nor a possible area code (area codes are the three characters of columns 2..4),
yet the configuration phase succeeds and processing proceeds, with `ZZZZZ9`
installed verbatim as an area filter. -/
theorem C2_counterexample :
    REGION_ALIAS_MAP "ZZZZZ9" = none ∧
    main_config "PG" "ZZZZZ9" none none =
      .ok ⟨["PG"], none, some ["ZZZZZ9"], true⟩ :=
  ⟨rfl, rfl⟩

/-- Witness for C2 at concrete inputs. -/
theorem C2_witness :
    (∃ msg, main_config "XX" "EUR,EEU,MES" none none = .error msg) ∧
    (∃ cfg, main_config "PG,PI" "EUR" none none = .ok cfg) ∧
    "QQQ" ∈ expand_region ["EU", "QQQ"] :=
  ⟨C2_theorem.1 "XX" "EUR,EEU,MES" none none "XX" (by decide) (by decide),
   C2_theorem.2.1 "PG,PI" "EUR" none none (by decide),
   C2_theorem.2.2 ["EU", "QQQ"] "QQQ" (by decide) rfl⟩

theorem canonical_payload_blank_underscore (grp : Entity) (c : String) (e : ContEntry)
    (h1 : alookup grp.cont c = some e) (h2 : e.appl = "") :
    canonical_payload { grp with cont := areplace grp.cont c ⟨e.line, "_"⟩ } =
      canonical_payload grp := by
  obtain ⟨t, pr, cont, s⟩ := grp
  simp only at h1
  simp only [canonical_payload]
  have hkeys : sortedContKeys (areplace cont c ⟨e.line, "_"⟩) = sortedContKeys cont := by
    unfold sortedContKeys
    rw [keys_areplace]
  rw [hkeys]
  have hparts : (sortedContKeys cont).filterMap (fun cno =>
        (alookup (areplace cont c ⟨e.line, "_"⟩) cno).map (fun e2 => contPart cno e2)) =
      (sortedContKeys cont).filterMap (fun cno =>
        (alookup cont cno).map (fun e2 => contPart cno e2)) := by
    apply List.filterMap_congr
    intro cno _
    by_cases hc : cno = c
    · subst hc
      rw [alookup_areplace_self _ (by rw [h1]; rfl), h1]
      simp only [Option.map_some']
      unfold contPart
      rw [h2]
      rfl
    · rw [alookup_areplace_ne _ _ _ _ hc]
  rw [hparts]

/-- C9: `canonical_payload` encodes an empty continuation application type as
the character `_`, so an entity whose continuation application type is `""`
and its copy holding the literal `"_"` have equal canonical payloads and are
never classified as Modified by `compute_delta`, although their projected rows
differ in the `cont#..._appl_code` field (`""` versus `"_"`, shown at the
concrete PG entity `c9Entity`). -/
theorem C9_theorem (grp : Entity) (c : String) (e : ContEntry) (k : EntityKey)
    (h1 : alookup grp.cont c = some e) (h2 : e.appl = "") :
    canonical_payload { grp with cont := areplace grp.cont c ⟨e.line, "_"⟩ } =
        canonical_payload grp ∧
    (compute_delta [(k, grp)]
        [(k, { grp with cont := areplace grp.cont c ⟨e.line, "_"⟩ })]).2.2 = [] ∧
    rowGet (build_row_from_group pg.COLS c9Entity pgHdr2 none) "cont#2_appl_code" = "" ∧
    rowGet (build_row_from_group pg.COLS
        { c9Entity with cont := areplace c9Entity.cont "2" ⟨"L2", "_"⟩ }
        pgHdr2 none) "cont#2_appl_code" = "_" := by
  have hcp := canonical_payload_blank_underscore grp c e h1 h2
  refine ⟨hcp, ?_, rfl, rfl⟩
  unfold compute_delta
  have hk1 : keysOf [(k, grp)] = [k] := rfl
  have hk2 : keysOf [(k, { grp with cont := areplace grp.cont c ⟨e.line, "_"⟩ })] = [k] := rfl
  rw [hk1, hk2]
  have hd : ([k] : List EntityKey).dedup = [k] := by simp
  rw [hd]
  have hfil : ([k] : List EntityKey).filter (fun x => decide (x ∈ [k])) = [k] := by simp
  rw [hfil]
  have hsort : sortKeys [k] = [k] := rfl
  rw [hsort]
  simp only [List.filter_eq_nil_iff]
  intro a ha
  rw [List.mem_singleton] at ha
  subst ha
  rw [alookup_cons, if_pos rfl, alookup_cons, if_pos rfl]
  simp [hcp]

/-- Witness for C9 at the concrete entity `c9Entity`. -/
theorem C9_witness :
    canonical_payload { c9Entity with cont := areplace c9Entity.cont "2" ⟨"L2", "_"⟩ } =
        canonical_payload c9Entity ∧
    (compute_delta [(("PG", "K"), c9Entity)]
        [(("PG", "K"), { c9Entity with cont := areplace c9Entity.cont "2" ⟨"L2", "_"⟩ })]).2.2 = [] ∧
    rowGet (build_row_from_group pg.COLS c9Entity pgHdr2 none) "cont#2_appl_code" = "" ∧
    rowGet (build_row_from_group pg.COLS
        { c9Entity with cont := areplace c9Entity.cont "2" ⟨"L2", "_"⟩ }
        pgHdr2 none) "cont#2_appl_code" = "_" :=
  C9_theorem c9Entity "2" ⟨"L2", ""⟩ ("PG", "K") rfl rfl

theorem keyIcao_idroot (l : String) : keyIcao (idroot_for_line l) = lineIcao l := by
  unfold keyIcao idroot_for_line lineIcao
  congr 2
  unfold slice_
  show String.mk ((((l.data.drop 0).take 21).drop 6).take 4) =
    String.mk ((l.data.drop 6).take 4)
  congr 1
  rw [List.drop_zero, List.drop_take, List.take_take]
  norm_num

theorem mem_keys_foldl_combineStep (lines : List String) :
    ∀ (gs : EntityMap) (k : EntityKey), k ∈ keysOf (lines.foldl combineStep gs) →
      k ∈ keysOf gs ∨ ∃ l ∈ lines, idroot_for_line l = k := by
  induction lines with
  | nil => intro gs k h; exact Or.inl h
  | cons ln rest ih =>
    intro gs k h
    rcases ih (combineStep gs ln) k h with h1 | ⟨l, hl, he⟩
    · cases hc : alookup gs (idroot_for_line ln) with
      | none =>
        rw [combineStep_eq_none gs ln hc] at h1
        unfold keysOf at h1
        rw [List.map_append] at h1
        rcases List.mem_append.mp h1 with h2 | h2
        · exact Or.inl h2
        · rw [List.map_singleton, List.mem_singleton] at h2
          exact Or.inr ⟨ln, List.mem_cons_self ln rest, h2.symm⟩
      | some g =>
        rw [combineStep_eq_some gs ln g hc] at h1
        unfold keysOf at h1
        rw [keys_areplace] at h1
        exact Or.inl h1
    · exact Or.inr ⟨l, List.mem_cons_of_mem ln hl, he⟩

/-- C3: the discard set is the sorted union of the orphan ICAOs found
independently in the two snapshots (every such ICAO is in the discarded-ICAO
output list, which is exactly this union), the same set filters both snapshots
before grouping, and after filtering no entity key of any record type's
grouping — hence none of the Current/Added/Removed/Modified keys, which all
come from these groupings — carries an ICAO in the set. -/
theorem C3_theorem (old_lines new_lines : List String) :
    (∀ i, i ∈ discard_union old_lines new_lines ↔
        (i ∈ find_airports_to_discard old_lines ∨
         i ∈ find_airports_to_discard new_lines)) ∧
    (∀ (og ng : EntityMap) (k : EntityKey),
        (k ∈ (compute_delta og ng).1 → k ∈ keysOf ng) ∧
        (k ∈ (compute_delta og ng).2.1 → k ∈ keysOf og) ∧
        (k ∈ (compute_delta og ng).2.2 → k ∈ keysOf og)) ∧
    (∀ (t : String) (k : EntityKey), k ∈ keysOf (combine_groups (bucket_by_tcode
        (apply_discard old_lines (discard_union old_lines new_lines)) t)) →
        keyIcao k ∉ discard_union old_lines new_lines) ∧
    (∀ (t : String) (k : EntityKey), k ∈ keysOf (combine_groups (bucket_by_tcode
        (apply_discard new_lines (discard_union old_lines new_lines)) t)) →
        keyIcao k ∉ discard_union old_lines new_lines) := by
  have hmain : ∀ (lines : List String) (d : List String) (t : String) (k : EntityKey),
      k ∈ keysOf (combine_groups (bucket_by_tcode (apply_discard lines d) t)) →
      keyIcao k ∉ d := by
    intro lines d t k hk
    unfold combine_groups at hk
    rcases mem_keys_foldl_combineStep _ [] k hk with h0 | ⟨l, hl, he⟩
    · exact absurd h0 (List.not_mem_nil k)
    · unfold bucket_by_tcode at hl
      have hl2 : l ∈ apply_discard lines d := List.mem_of_mem_filter hl
      unfold apply_discard at hl2
      by_cases hd : d = []
      · rw [hd]
        exact List.not_mem_nil _
      · rw [if_neg hd] at hl2
        have hp := List.of_mem_filter hl2
        rw [decide_eq_true_eq] at hp
        rw [← he, keyIcao_idroot]
        exact hp
  refine ⟨?_, ?_, hmain old_lines _, hmain new_lines _⟩
  · intro i
    unfold discard_union
    rw [(List.perm_insertionSort strDataLE _).mem_iff, List.mem_dedup, List.mem_append]
  · intro og ng k
    refine ⟨?_, ?_, ?_⟩
    · intro h
      have h1 : k ∈ sortKeys (((keysOf ng).dedup).filter
          (fun x => decide (x ∉ (keysOf og).dedup))) := h
      unfold sortKeys at h1
      rw [(List.perm_insertionSort keyLE _).mem_iff] at h1
      exact List.mem_dedup.mp (List.mem_of_mem_filter h1)
    · intro h
      have h1 : k ∈ sortKeys (((keysOf og).dedup).filter
          (fun x => decide (x ∉ (keysOf ng).dedup))) := h
      unfold sortKeys at h1
      rw [(List.perm_insertionSort keyLE _).mem_iff] at h1
      exact List.mem_dedup.mp (List.mem_of_mem_filter h1)
    · intro h
      have h1 : k ∈ (sortKeys (((keysOf og).dedup).filter
          (fun x => decide (x ∈ (keysOf ng).dedup)))).filter
            (fun x => decide ((alookup og x).map canonical_payload ≠
                              (alookup ng x).map canonical_payload)) := h
      have h2 := List.mem_of_mem_filter h1
      unfold sortKeys at h2
      rw [(List.perm_insertionSort keyLE _).mem_iff] at h2
      exact List.mem_dedup.mp (List.mem_of_mem_filter h2)

/-- Witness for C3 at a concrete pair of snapshots: the old snapshot holds a
continuation-only PG line for ICAO `AAAA` and a primary for `LTAC`; the new
snapshot is empty. -/
theorem C3_witness :
    "AAAA" ∈ discard_union [pgContLine, pgOldLine] [] ∧
    keyIcao (idroot_for_line pgOldLine) ∉ discard_union [pgContLine, pgOldLine] [] :=
  ⟨((C3_theorem [pgContLine, pgOldLine] []).1 "AAAA").mpr (Or.inl (by decide)),
   (C3_theorem [pgContLine, pgOldLine] []).2.2.1 "PG" (idroot_for_line pgOldLine) (by decide)⟩

theorem rowGet_setdefaults (header : List String) (r : Row) (k : String) :
    rowGet (setdefaults header r) k = rowGet r k := by
  induction header generalizing r with
  | nil => rfl
  | cons hd rest ih =>
    show rowGet (setdefaults rest (if (alookup r hd).isSome then r else r ++ [(hd, "")])) k
      = rowGet r k
    rw [ih]
    by_cases hs : (alookup r hd).isSome = true
    · rw [if_pos hs]
    · rw [if_neg hs]
      unfold rowGet
      rw [alookup_append]
      cases hl : alookup r k with
      | some v => rfl
      | none =>
        rw [alookup_cons]
        by_cases he : hd = k
        · rw [if_pos he]
          rfl
        · rw [if_neg he]
          rfl

theorem contKey_head (s t : String) : (("cont#" ++ s) ++ t).data.head? = some 'c' := by
  rw [String.data_append, String.data_append]
  rfl

theorem contKey_ne_primary (s t : String) : (("cont#" ++ s) ++ t) ≠ "primary_1_123" := by
  intro he
  have h := contKey_head s t
  rw [he] at h
  exact absurd h (by decide)

theorem alookup_ite_aupdate {cond : Prop} [Decidable cond] (r : Row) (key v k2 : String)
    (hne : k2 ≠ key) :
    alookup (if cond then aupdate r key v else r) k2 = alookup r k2 := by
  by_cases h : cond
  · rw [if_pos h, alookup_aupdate_ne _ _ _ _ hne]
  · rw [if_neg h]

theorem alookup_contFieldsStep_primary (header : List String) (g : Entity) (r : Row)
    (cno : String) :
    alookup (contFieldsStep header g r cno) "primary_1_123" =
      alookup r "primary_1_123" := by
  cases halook : alookup g.cont cno with
  | none => simp only [contFieldsStep, halook]
  | some e =>
    simp only [contFieldsStep, halook]
    rw [alookup_ite_aupdate _ _ _ _ ((contKey_ne_primary cno "_1_123").symm),
        alookup_ite_aupdate _ _ _ _ ((contKey_ne_primary cno "_appl_label").symm),
        alookup_ite_aupdate _ _ _ _ ((contKey_ne_primary cno "_appl_code").symm)]

theorem alookup_contLoop_primary (header : List String) (g : Entity) :
    ∀ (ks : List String) (r : Row),
      alookup (ks.foldl (contFieldsStep header g) r) "primary_1_123" =
        alookup r "primary_1_123" := by
  intro ks
  induction ks with
  | nil => intro r; rfl
  | cons c rest ih =>
    intro r
    show alookup (rest.foldl (contFieldsStep header g) (contFieldsStep header g r c))
      "primary_1_123" = _
    rw [ih, alookup_contFieldsStep_primary]

theorem alookup_foldl_aupdate (v : String × Option (Nat × Nat) → String) :
    ∀ (cols : ColSpec) (init : Row) (n : String),
      alookup (cols.foldl (fun d c => aupdate d c.1 (v c)) init) n =
        match (cols.filter (fun c => decide (c.1 = n))).getLast? with
        | some c => some (v c)
        | none => alookup init n := by
  intro cols
  induction cols with
  | nil => intro init n; rfl
  | cons c rest ih =>
    intro init n
    show alookup (rest.foldl (fun d c => aupdate d c.1 (v c)) (aupdate init c.1 (v c))) n = _
    rw [ih, List.filter_cons]
    by_cases hc : c.1 = n
    · rw [if_pos (by simp [hc])]
      cases hfr : (rest.filter (fun c => decide (c.1 = n))).getLast? with
      | some y =>
        have h2 : (c :: rest.filter (fun c => decide (c.1 = n))).getLast? = some y := by
          cases hl : rest.filter (fun c => decide (c.1 = n)) with
          | nil => rw [hl] at hfr; exact Option.noConfusion hfr
          | cons x xs =>
            rw [List.getLast?_cons_cons, ← hl]
            exact hfr
        rw [h2]
      | none =>
        have hl : rest.filter (fun c => decide (c.1 = n)) = [] := by
          by_contra hne
          have h3 := List.getLast?_isSome.mpr hne
          rw [hfr] at h3
          exact absurd h3 (by decide)
        rw [hl, hc, alookup_aupdate_self]
        rfl
    · rw [if_neg (by simp [hc])]
      cases hfr : (rest.filter (fun c => decide (c.1 = n))).getLast? with
      | some y => rfl
      | none =>
        rw [alookup_aupdate_ne _ _ _ _ (fun he => hc he.symm)]

theorem filter_key_single (n : String) (rng : Option (Nat × Nat)) :
    ∀ cols : ColSpec, (cols.map Prod.fst).Nodup → (n, rng) ∈ cols →
      cols.filter (fun c => decide (c.1 = n)) = [(n, rng)] := by
  intro cols
  induction cols with
  | nil => intro _ h; exact absurd h (List.not_mem_nil _)
  | cons c rest ih =>
    intro hnd hmem
    rw [List.map_cons, List.nodup_cons] at hnd
    obtain ⟨hc1, hc2⟩ := hnd
    rw [List.filter_cons]
    rcases List.mem_cons.mp hmem with he | hr
    · subst he
      rw [if_pos (by simp)]
      have hfil : rest.filter (fun c => decide (c.1 = n)) = [] := by
        rw [List.filter_eq_nil_iff]
        intro x hx
        simp only [decide_eq_true_eq]
        intro hxn
        exact hc1 (hxn ▸ List.mem_map.mpr ⟨x, hx, rfl⟩)
      rw [hfil]
    · have hn : n ∈ rest.map Prod.fst := List.mem_map.mpr ⟨(n, rng), hr, rfl⟩
      have hcn : ¬ (c.1 = n) := fun he2 => hc1 (he2 ▸ hn)
      rw [if_neg (by simp [hcn])]
      exact ih hc2 hr

theorem alookup_parse_primary (line : String) (cols : ColSpec)
    (hmem : ("primary_1_123", (none : Option (Nat × Nat))) ∈ cols)
    (hnd : (cols.map Prod.fst).Nodup) :
    alookup (parse_primary_fields line cols) "primary_1_123" =
      some (payload_1_123 line) := by
  unfold parse_primary_fields
  have h := alookup_foldl_aupdate (fun c => fieldValue line c.2) cols [] "primary_1_123"
  rw [filter_key_single "primary_1_123" none cols hnd hmem] at h
  exact h

theorem alookup_mem {α β : Type} [DecidableEq α] {l : List (α × β)} {k : α} {v : β}
    (h : alookup l k = some v) : (k, v) ∈ l := by
  induction l with
  | nil => exact Option.noConfusion h
  | cons p rest ih =>
    rw [alookup_cons] at h
    by_cases hp : p.1 = k
    · rw [if_pos hp] at h
      injection h with he
      have h2 : (k, v) = p := by
        rw [← hp, ← he]
      rw [h2]
      exact List.mem_cons_self p rest
    · rw [if_neg hp] at h
      exact List.mem_cons_of_mem p (ih h)

theorem rowVals_empty_fill (header : List String) :
    ∀ (r : Row), (∀ p ∈ r, p.2 = "") →
      ∀ p ∈ header.foldl (fun r k2 => aupdate r k2 "") r, p.2 = "" := by
  induction header with
  | nil => intro r h p hp; exact h p hp
  | cons hd rest ih =>
    intro r h p hp
    refine ih (aupdate r hd "") ?_ p hp
    intro q hq
    unfold aupdate at hq
    by_cases hs : (alookup r hd).isSome = true
    · rw [if_pos hs] at hq
      unfold areplace at hq
      obtain ⟨q0, hq0, hqe⟩ := List.mem_map.mp hq
      by_cases hqk : q0.1 = hd
      · rw [if_pos hqk] at hqe
        rw [← hqe]
      · rw [if_neg hqk] at hqe
        rw [← hqe]
        exact h q0 hq0
    · rw [if_neg hs] at hq
      rcases List.mem_append.mp hq with h1 | h1
      · exact h q h1
      · rw [List.mem_singleton] at h1
        rw [h1]

theorem rowGet_fill_empty (header : List String) (k : String) :
    rowGet (header.foldl (fun r k2 => aupdate r k2 "") []) k = "" := by
  unfold rowGet
  cases hl : alookup (header.foldl (fun r k2 => aupdate r k2 "") []) k with
  | none => rfl
  | some v =>
    have hm := alookup_mem hl
    have hv := rowVals_empty_fill header []
      (by intro p hp; exact absurd hp (List.not_mem_nil p)) _ hm
    simp only at hv
    rw [hv]
    rfl

theorem refLineOf_primary (grp : Entity) (p : String) (hp : grp.primary = some p)
    (hps : p ≠ "") : refLineOf grp = some p := by
  unfold refLineOf
  rw [hp]
  have ht : truthyStr (some p) = true := by simp [truthyStr, hps]
  rw [ht]
  rfl

theorem alookup_baseRow_primary (cols : ColSpec) (grp : Entity) (header : List String)
    (p : String) (hp : grp.primary = some p) (hps : p ≠ "") :
    alookup (baseRowOf cols grp header) "primary_1_123" = some (payload_1_123 p) := by
  unfold baseRowOf
  rw [refLineOf_primary grp p hp hps, hp]
  have ht : truthyStr (some p) = true := by simp [truthyStr, hps]
  rw [ht, if_pos rfl]
  show alookup (aupdate (parse_primary_fields ((some p).getD "") cols)
    "primary_1_123" (payload_1_123 p)) "primary_1_123" = _
  rw [alookup_aupdate_self]

theorem refLineOf_contref (grp : Entity) (c : String) (rest : List String) (e : ContEntry)
    (hp : grp.primary = none) (hsk : sortedContKeys grp.cont = c :: rest)
    (he : alookup grp.cont c = some e) : refLineOf grp = some e.line := by
  have hie : grp.cont.isEmpty = false := by
    cases hc : grp.cont with
    | nil =>
      rw [hc] at hsk
      exact List.noConfusion hsk
    | cons a b => rfl
  have h2 : refLineOf grp = Option.map ContEntry.line (alookup grp.cont c) := by
    unfold refLineOf
    rw [hp, hie, hsk]
    rfl
  rw [h2, he]
  rfl

theorem alookup_baseRow_contref (cols : ColSpec) (grp : Entity) (header : List String)
    (c : String) (rest : List String) (e : ContEntry)
    (hp : grp.primary = none) (hsk : sortedContKeys grp.cont = c :: rest)
    (he : alookup grp.cont c = some e) (hel : e.line ≠ "")
    (hmem : ("primary_1_123", (none : Option (Nat × Nat))) ∈ cols)
    (hnd : (cols.map Prod.fst).Nodup) :
    alookup (baseRowOf cols grp header) "primary_1_123" =
      some (payload_1_123 e.line) := by
  unfold baseRowOf
  rw [refLineOf_contref grp c rest e hp hsk he, hp]
  have ht : truthyStr (some e.line) = true := by simp [truthyStr, hel]
  rw [ht, if_pos rfl]
  show alookup (parse_primary_fields ((some e.line).getD "") cols) "primary_1_123" = _
  exact alookup_parse_primary e.line cols hmem hnd

theorem baseRow_nil (cols : ColSpec) (grp : Entity) (header : List String)
    (hp : grp.primary = none) (hc : grp.cont = []) :
    baseRowOf cols grp header = header.foldl (fun r k2 => aupdate r k2 "") [] := by
  unfold baseRowOf refLineOf
  rw [hp, hc]
  rfl

/-- C4 (amended): in `build_row_from_group` under any schema that declares the
synthetic field (`("primary_1_123", null)` is in the column list, column names
duplicate-free), the raw-payload field holds the primary line's characters
1..123 when a (non-empty) primary exists; when there is no primary but
continuations exist it holds the reference continuation's payload — not the
empty string; it is empty only when the entity has neither a primary nor any
continuation. -/
theorem C4_theorem (cols : ColSpec) (grp : Entity) (header : List String)
    (hmem : ("primary_1_123", (none : Option (Nat × Nat))) ∈ cols)
    (hnd : (cols.map Prod.fst).Nodup) :
    (∀ p : String, grp.primary = some p → p ≠ "" →
        rowGet (build_row_from_group cols grp header none) "primary_1_123" =
          payload_1_123 p) ∧
    (∀ (c : String) (rest : List String) (e : ContEntry),
        grp.primary = none → sortedContKeys grp.cont = c :: rest →
        alookup grp.cont c = some e → e.line ≠ "" →
        rowGet (build_row_from_group cols grp header none) "primary_1_123" =
          payload_1_123 e.line) ∧
    (grp.primary = none → grp.cont = [] →
        rowGet (build_row_from_group cols grp header none) "primary_1_123" = "") := by
  have hbuild : build_row_from_group cols grp header none =
      setdefaults header ((sortedContKeys grp.cont).foldl (contFieldsStep header grp)
        (baseRowOf cols grp header)) := rfl
  refine ⟨?_, ?_, ?_⟩
  · intro p hp hps
    rw [hbuild, rowGet_setdefaults]
    unfold rowGet
    rw [alookup_contLoop_primary, alookup_baseRow_primary cols grp header p hp hps]
    rfl
  · intro c rest e hp hsk he hel
    rw [hbuild, rowGet_setdefaults]
    unfold rowGet
    rw [alookup_contLoop_primary,
        alookup_baseRow_contref cols grp header c rest e hp hsk he hel hmem hnd]
    rfl
  · intro hp hc
    rw [hbuild, rowGet_setdefaults]
    have hcl : sortedContKeys grp.cont = [] := by rw [hc]; rfl
    rw [hcl]
    show rowGet (baseRowOf cols grp header) "primary_1_123" = ""
    rw [baseRow_nil cols grp header hp hc]
    exact rowGet_fill_empty header _

/-- Counterexample for C4: a continuation-only PG entity (no primary) gets the
continuation's payload — not the empty string — in its `primary_1_123` field,
because the schema itself declares `primary_1_123` over the whole payload and
the reference line falls back to the first continuation. -/
theorem C4_counterexample :
    c4ContEntity.primary = none ∧
    rowGet (build_row_from_group pg.COLS c4ContEntity pgHdr2 none) "primary_1_123" =
      payload_1_123 pgContLine ∧
    payload_1_123 pgContLine ≠ "" :=
  ⟨rfl, rfl, by decide⟩

/-- Witness for C4 at a concrete PG entity with a primary. -/
theorem C4_witness :
    rowGet (build_row_from_group pg.COLS c4PrimEntity pgHdr2 none) "primary_1_123" =
      payload_1_123 pgOldLine :=
  (C4_theorem pg.COLS c4PrimEntity pgHdr2 (by decide) (by decide)).1 pgOldLine rfl
    (by decide)

/-- Counterexample for C1: in the PG runway-length scenario the delta counts
are as claimed, but the changed-field list is not exactly `["rwy_length_ft"]`:
the synthetic raw-payload field `primary_1_123` — itself declared in PG's
column list, with the null range covering the whole payload 1..123 — also
differs, so the recorded list is `rwy_length_ft,primary_1_123`. -/
theorem C1_counterexample :
    c1Result.counts = (1, 0, 0, 1) ∧
    c1Result.mod_rows.map (fun r => rowGet r "changed_fields") =
      ["rwy_length_ft,primary_1_123"] ∧
    ("rwy_length_ft,primary_1_123" : String) ≠ "rwy_length_ft" :=
  ⟨rfl, rfl, by decide⟩

/-- C1 (amended): the PG runway-length scenario (one primary, identifier
containing `RWY01`, runway length `09000` → `09500`) is classified Modified
with counts Current=1, Added=0, Removed=0, Modified=1, and its changed-field
list is exactly `["rwy_length_ft", "primary_1_123"]` (count 2). -/
theorem C1_theorem :
    c1Result.counts = (1, 0, 0, 1) ∧
    changed_fields_between c1Result.base_hdr
      (build_row_from_group pg.COLS
        ((alookup (combine_groups [pgOldLine]) (idroot_for_line pgOldLine)).getD
          (newEntity pgOldLine)) c1Result.base_hdr (some pg.postprocess_row))
      (build_row_from_group pg.COLS
        ((alookup (combine_groups [pgNewLine]) (idroot_for_line pgNewLine)).getD
          (newEntity pgNewLine)) c1Result.base_hdr (some pg.postprocess_row)) =
      ["rwy_length_ft", "primary_1_123"] ∧
    c1Result.mod_rows.map (fun r => rowGet r "changed_fields") =
      ["rwy_length_ft,primary_1_123"] ∧
    c1Result.mod_rows.map (fun r => rowGet r "changed_field_count") = ["2"] :=
  ⟨rfl, rfl, rfl, rfl⟩
